import Mathlib

/-!
Verification development for the `ff` library (`src/main.ts`), a
command-construction and result-parsing layer in front of ffmpeg/ffprobe.

The file embeds, as executable Lean definitions, the pure cores of the
TypeScript source:

* `buildConvertArgs` — the option-to-argument compiler (current revision),
  including the vp9 bitrate-mode dispatch that throws `UnreachableError`
  on an unknown mode tag (modelled with `Except`);
* `getKeyframeTimestamps` — the keyframe-timestamp extraction parser
  (the pure part, after the ffprobe invocation);
* `probeJson` — the structural read of the JSON probe document
  (current revision's `probe`);
* `probeBracketed` — the bracketed-section probe parser
  (earlier revision's `probe`).

JavaScript numbers used for time offsets are modelled as `Rat`;
`Number.prototype.toFixed(3)` is modelled by `toFixed3` (round to nearest
thousandth, half away from zero, rendered with exactly three decimals).
Union-typed TypeScript fields become inductive types; optional fields
become `Option`.  Because the TypeScript runtime is structurally typed,
variant tags outside the declared closed unions can reach the compiler at
runtime; those are modelled by explicit `unknown` constructors carrying
the raw tag string.
-/

/-- Fixed three-decimal rendering of a time offset, modelling the JS
`x.toFixed(3)` calls in the source (round half away from zero; sign
rendered first, as JS does).  For `x = n / d` in lowest terms the number
of rounded thousandths of `|x|` is `⌊|x| * 1000 + 1 / 2⌋`, written below
directly on the numerator and denominator so that it evaluates by
integer arithmetic. -/
def toFixed3 (x : Rat) : String :=
  let neg := x < 0
  let m : Nat := (2000 * x.num.natAbs + x.den) / (2 * x.den)
  let frac := m % 1000
  let pad := if frac < 10 then "00" else if frac < 100 then "0" else ""
  (if neg then "-" else "") ++ toString (m / 1000) ++ "." ++ pad ++ toString frac

/-- Models `throw new UnreachableError(video)` in the vp9 bitrate-mode dispatch
(source line 898).  The source attaches the offending value for
diagnostics; the model records the unknown mode tag. -/
structure UnreachableError where
  tag : String
deriving DecidableEq, Repr

/-- Input options of `ConvertOpts` (source lines 430-441).  The TypeScript
type puts `duration` and `end` in a union so that a well-typed literal
sets at most one of them, but at runtime both keys may be present; the
compiler reads each with `"duration" in input` / `"end" in input` guards,
so both are independent `Option`s here. -/
structure InputOpts where
  file : String
  start : Option Rat
  copyTimestamps : Option Bool
  duration : Option Rat
  «end» : Option Rat
deriving DecidableEq, Repr

/-- One entry of the `map` array (source lines 442-448). -/
structure MapEntry where
  exclude : Option Bool
  input : Nat
  type : Option String
  stream : Option Nat
  optional : Option Bool
deriving DecidableEq, Repr

/-- Output options (source lines 591-609).  `movflags` is an optional
array in the source; an absent array and an empty one behave identically
(`output.movflags?.length` is falsy for both), so it is a plain list. -/
structure OutputOpts where
  format : Option String
  file : String
  start : Option Rat
  duration : Option Rat
  movflags : List String
deriving DecidableEq, Repr

/-- The `vsync` union (source line 460). -/
inductive Vsync where
  | passthrough | cfr | vfr | drop | auto
deriving DecidableEq, Repr

def Vsync.toToken : Vsync → String
  | .passthrough => "passthrough"
  | .cfr => "cfr"
  | .vfr => "vfr"
  | .drop => "drop"
  | .auto => "auto"

/-- The libx264 `preset` union (source lines 472-481). -/
inductive X264Preset where
  | ultrafast | superfast | veryfast | faster | fast
  | medium | slow | slower | veryslow
deriving DecidableEq, Repr

def X264Preset.toToken : X264Preset → String
  | .ultrafast => "ultrafast"
  | .superfast => "superfast"
  | .veryfast => "veryfast"
  | .faster => "faster"
  | .fast => "fast"
  | .medium => "medium"
  | .slow => "slow"
  | .slower => "slower"
  | .veryslow => "veryslow"

/-- The vp9 `deadline` union (source lines 490, 494). -/
inductive Vp9Deadline where
  | good | best | realtime
deriving DecidableEq, Repr

def Vp9Deadline.toToken : Vp9Deadline → String
  | .good => "good"
  | .best => "best"
  | .realtime => "realtime"

/-- The vp9 bitrate-mode union (source lines 516-548).  `average-bitrate`
carries a number, the other bitrate-carrying modes carry strings, exactly
as in the source.  `unknown` models a runtime value whose `mode` tag is
outside the declared union (reachable through JS structural typing); the
dispatch's `default` branch throws on it. -/
inductive Vp9Mode where
  | averageBitrate (bitrate : Int)
  | constantQuality (crf : Int)
  | constrainedQualityCrf (crf : Int) (bitrate : String)
  | constrainedQualityBounds (minBitrate targetBitrate maxBitrate : String)
  | constantBitrate (bitrate : String)
  | lossless
  | unknown (tag : String)
deriving DecidableEq, Repr

/-- The vp9 option group (source lines 484-514): `multithreading?`,
optional `deadline`/`cpuUsed` (the source checks `"cpuUsed" in video`
then `ifDefined`, i.e. emits only when present and defined), and the
bitrate mode. -/
structure Vp9Opts where
  multithreading : Option Bool
  deadline : Option Vp9Deadline
  cpuUsed : Option Int
  mode : Vp9Mode
deriving DecidableEq, Repr

/-- gif `loop: boolean | number` (source line 551). -/
inductive GifLoop where
  | bool (b : Bool)
  | num (n : Int)
deriving DecidableEq, Repr

/-- The non-copy video codec union (source lines 466-553).  `unknown`
models a runtime codec tag outside the declared union: the codec switch
(source lines 846-901) has no `default` case, so no tuning flags are
emitted for it. -/
inductive VideoCodec where
  | libtheora (quality : Nat)
  | libx264 (preset : X264Preset) (crf : Int)
  | vp9 (opts : Vp9Opts)
  | gif (loop : GifLoop)
  | unknown (tag : String)
deriving DecidableEq, Repr

/-- The shared fields of a non-copy video codec object (source lines
453, 459-464): free-form filter fragment, fps, vsync, resize. -/
structure VideoTranscode where
  filter : Option String
  fps : Option Nat
  vsync : Option Vsync
  resize : Option (Option Int × Option Int)
  codec : VideoCodec
deriving DecidableEq, Repr

/-- The `video` field union (source lines 450-554): a plain boolean,
`{codec: "copy", filter?}`, or a codec object. -/
inductive VideoSpec where
  | flag (b : Bool)
  | copy (filter : Option String)
  | codec (v : VideoTranscode)
deriving DecidableEq, Repr

/-- The audio codec union (source lines 562-590). -/
inductive AudioCodec where
  | aac
  | flac
  | libmp3lame (quality : Nat)
  | libopus
  | libvorbis (quality : Int)
  | pcm (signedness : String) (bits : Nat) (endianness : Option String)
  | copy
deriving DecidableEq, Repr

/-- The shared fields of an audio codec object (source lines 557-561). -/
structure AudioTranscode where
  samplingRate : Option Nat
  downmix : Option Bool
  filter : Option String
  codec : AudioCodec
deriving DecidableEq, Repr

/-- The `audio` field union (source lines 555-590). -/
inductive AudioSpec where
  | flag (b : Bool)
  | codec (a : AudioTranscode)
deriving DecidableEq, Repr

/-- The root `ConvertOpts` record (source lines 428-610).  `map ?? []` makes an absent
map array equivalent to an empty one, so it is a plain list. -/
structure ConvertOpts where
  threads : Option Nat
  input : InputOpts
  map : List MapEntry
  metadata : Bool
  video : Option VideoSpec
  audio : Option AudioSpec
  output : OutputOpts
deriving DecidableEq, Repr

/-- Models `ifDefined(threads, t => args.push("-threads", t))` (source line 795). -/
def threadsArgs (t : Option Nat) : List String :=
  match t with
  | some n => ["-threads", toString n]
  | none => []

/-- Input section of the compiler (source lines 797-806): `-copyts` when
`copyTimestamps` is present (the source uses `ifDefined`, so even an
explicit `false` emits the flag), `-ss`/`-t`/`-to` for the trims, then
`-i <file>`. -/
def inputArgs (i : InputOpts) : List String :=
  (match i.copyTimestamps with | some _ => ["-copyts"] | none => []) ++
  (match i.start with | some s => ["-ss", toFixed3 s] | none => []) ++
  (match i.duration with | some t => ["-t", toFixed3 t] | none => []) ++
  (match i.«end» with | some t => ["-to", toFixed3 t] | none => []) ++
  ["-i", i.file]

/-- Models `!metadata && args.push("-map_metadata", -1)` (source line 809). -/
def metadataArgs (metadata : Bool) : List String :=
  if metadata then [] else ["-map_metadata", "-1"]

/-- The composite `-map` token (source lines 813-822): exclusion marker,
input index, optional `:type`, optional `:stream`, optional `?` suffix. -/
def mapEntryToken (m : MapEntry) : String :=
  (if m.exclude.getD false then "-" else "") ++
  toString m.input ++
  ((m.type.map (fun t => ":" ++ t)).getD "") ++
  ((m.stream.map (fun s => ":" ++ toString s)).getD "") ++
  (if m.optional.getD false then "?" else "")

/-- The map section (source lines 812-823). -/
def mapArgs (ms : List MapEntry) : List String :=
  (ms.map (fun m => ["-map", mapEntryToken m])).flatten

/-- The comma-joined video filter list (source lines 833-839): fps
conversion first, then the proportional resize (width/height defaulting
to the `-2` sentinel), then the free-form filter fragment. -/
def videoFilters (v : VideoTranscode) : List String :=
  ((v.fps.map (fun fps => "fps=" ++ toString fps)).toList) ++
  ((v.resize.map (fun r =>
      "scale=" ++ toString (r.1.getD (-2)) ++ ":" ++ toString (r.2.getD (-2)))).toList) ++
  v.filter.toList

/-- Models `if (filters.length) args.push("-filter:v", filters.join(","))`
(source lines 840-842). -/
def filterVFlag (v : VideoTranscode) : List String :=
  if videoFilters v = [] then []
  else ["-filter:v", String.intercalate "," (videoFilters v)]

/-- Models `ifDefined(video.vsync, ...)` (source line 843). -/
def vsyncArgs (v : Option Vsync) : List String :=
  match v with
  | some s => ["-vsync", s.toToken]
  | none => []

/-- The `-c:v` codec name token (source line 845). -/
def videoCodecTag : VideoCodec → String
  | .libtheora _ => "libtheora"
  | .libx264 _ _ => "libx264"
  | .vp9 _ => "vp9"
  | .gif _ => "gif"
  | .unknown tag => tag

/-- The gif loop value token (source lines 856-860): `true` maps to `0`,
`false` to `-1`, a number is passed verbatim. -/
def gifLoopToken : GifLoop → String
  | .bool true => "0"
  | .bool false => "-1"
  | .num n => toString n

/-- The vp9 bitrate-mode dispatch (source lines 873-899).  The `default`
case throws `UnreachableError`. -/
def vp9ModeArgs : Vp9Mode → Except UnreachableError (List String)
  | .averageBitrate b => .ok ["-b:v", toString b]
  | .constantBitrate b => .ok ["-minrate", b, "-b:v", b, "-maxrate", b]
  | .constantQuality c => .ok ["-crf", toString c, "-b:v", "0"]
  | .constrainedQualityCrf c b => .ok ["-crf", toString c, "-b:v", b]
  | .constrainedQualityBounds mn t mx => .ok ["-minrate", mn, "-b:v", t, "-maxrate", mx]
  | .lossless => .ok ["-lossless", "1"]
  | .unknown tag => .error ⟨tag⟩

/-- The vp9 tuning section (source lines 862-900): `-cpu-used`,
`-deadline`, `-row-mt 1` (only when `multithreading` is `true`), then the
bitrate-mode flags. -/
def vp9Args (o : Vp9Opts) : Except UnreachableError (List String) :=
  match vp9ModeArgs o.mode with
  | .error e => .error e
  | .ok m =>
    .ok ((match o.cpuUsed with | some c => ["-cpu-used", toString c] | none => []) ++
         (match o.deadline with | some d => ["-deadline", d.toToken] | none => []) ++
         (if o.multithreading = some true then ["-row-mt", "1"] else []) ++
         m)

/-- The per-codec tuning switch (source lines 846-901).  There is no
`default` case: an unknown codec tag emits no tuning flags. -/
def videoTuningArgs : VideoCodec → Except UnreachableError (List String)
  | .libtheora q => .ok ["-q:v", toString q]
  | .libx264 p c => .ok ["-preset", p.toToken, "-crf", toString c,
                         "-max_muxing_queue_size", "1048576"]
  | .gif l => .ok ["-loop", gifLoopToken l]
  | .vp9 o => vp9Args o
  | .unknown _ => .ok []

/-- The non-copy video branch (source lines 832-902): filter flag, vsync,
`-c:v <codec>`, then codec tuning.  A throw inside the tuning switch
aborts the whole compilation, which `Except` models by discarding the
already-pushed tokens. -/
def videoNonCopyArgs (v : VideoTranscode) : Except UnreachableError (List String) :=
  match videoTuningArgs v.codec with
  | .error e => .error e
  | .ok tuning =>
    .ok (filterVFlag v ++ vsyncArgs v.vsync ++ ["-c:v", videoCodecTag v.codec] ++ tuning)

/-- The video section (source lines 826-903): boolean shorthand (`true`
copies, `false` drops), the `copy` codec object, or a codec object. -/
def videoArgs : Option VideoSpec → Except UnreachableError (List String)
  | none => .ok []
  | some (.flag true) => .ok ["-c:v", "copy"]
  | some (.flag false) => .ok ["-vn"]
  | some (.copy f) =>
    .ok ((match f with | some s => ["-filter:v", s] | none => []) ++ ["-c:v", "copy"])
  | some (.codec v) => videoNonCopyArgs v

/-- The derived PCM codec name (source line 913):
`pcm_${signedness}${bits}${endianness ?? ""}`. -/
def pcmName (signedness : String) (bits : Nat) (endianness : Option String) : String :=
  "pcm_" ++ signedness ++ toString bits ++ endianness.getD ""

/-- The `-c:a` codec name token (source lines 910-915). -/
def audioCodecTag : AudioCodec → String
  | .aac => "aac"
  | .flac => "flac"
  | .libmp3lame _ => "libmp3lame"
  | .libopus => "libopus"
  | .libvorbis _ => "libvorbis"
  | .pcm sg bits e => pcmName sg bits e
  | .copy => "copy"

/-- The `-q:a` flag for libmp3lame and libvorbis (source lines 918-920). -/
def audioQualityArgs : AudioCodec → List String
  | .libmp3lame q => ["-q:a", toString q]
  | .libvorbis q => ["-q:a", toString q]
  | _ => []

/-- The audio section (source lines 906-921): boolean shorthand, else
`-af`, `-c:a`, `-ac 1` on downmix, `-ar` (the source tests
`audio.samplingRate &&`, so a zero rate is also skipped), quality. -/
def audioArgs : Option AudioSpec → List String
  | none => []
  | some (.flag true) => ["-c:a", "copy"]
  | some (.flag false) => ["-an"]
  | some (.codec a) =>
    (match a.filter with | some f => ["-af", f] | none => []) ++
    ["-c:a", audioCodecTag a.codec] ++
    (if a.downmix.getD false then ["-ac", "1"] else []) ++
    (match a.samplingRate with
     | some r => if r ≠ 0 then ["-ar", toString r] else []
     | none => []) ++
    audioQualityArgs a.codec

/-- The output section (source lines 924-930): `-movflags` joined with
`+` when nonempty, `-f`, output trims, then the output path, last. -/
def outputArgs (o : OutputOpts) : List String :=
  (if o.movflags.isEmpty then [] else ["-movflags", String.intercalate "+" o.movflags]) ++
  (match o.format with | some f => ["-f", f] | none => []) ++
  (match o.start with | some s => ["-ss", toFixed3 s] | none => []) ++
  (match o.duration with | some t => ["-t", toFixed3 t] | none => []) ++
  [o.file]

/-- The option-to-argument compiler `buildConvertArgs` (source lines
784-933).  The sections are emitted in source order; the vp9
`UnreachableError` throw propagates as the `error` case. -/
def buildConvertArgs (c : ConvertOpts) : Except UnreachableError (List String) :=
  match videoArgs c.video with
  | .error e => .error e
  | .ok v =>
    .ok (threadsArgs c.threads ++ inputArgs c.input ++ metadataArgs c.metadata ++
         mapArgs c.map ++ v ++ audioArgs c.audio ++ outputArgs c.output)

/-- Flag-name tokens of a flag/value-alternating argument list: the
tokens at even positions.  Every vp9 bitrate-mode emission alternates
flag, value, so this recovers the set of flags a mode emits. -/
def evenPositions : List String → List String
  | [] => []
  | [x] => [x]
  | x :: _ :: rest => x :: evenPositions rest

/-- The flag names emitted by a vp9 bitrate mode (empty for the throwing
`unknown` case). -/
def vp9ModeFlagNames (m : Vp9Mode) : List String :=
  match vp9ModeArgs m with
  | .ok l => evenPositions l
  | .error _ => []

/-- Splitting a character list at every separator character, the char
level semantics of the JS `split` calls in the source (consecutive
separators yield empty fragments, which callers filter out where the
source's regexes use `+`).  Written on `List Char` by structural
recursion so that concrete runs reduce inside the kernel. -/
def splitOnPred (p : Char → Bool) : List Char → List (List Char)
  | [] => [[]]
  | c :: cs =>
    let r := splitOnPred p cs
    if p c then [] :: r
    else
      match r with
      | [] => [[c]]
      | t :: ts => (c :: t) :: ts

/-- The fragments of a string around separator characters, as strings. -/
def splitChars (p : Char → Bool) (s : String) : List String :=
  (splitOnPred p s.data).map String.mk

/-- Models `String.prototype.trim` on the character list: drop leading
and trailing whitespace. -/
def trimChars (l : List Char) : List Char :=
  ((l.dropWhile Char.isWhitespace).reverse.dropWhile Char.isWhitespace).reverse

/-- The numeric value of a nonempty all-digit character run. -/
def digitsToNat (l : List Char) : Option Nat :=
  if l ≠ [] ∧ l.all Char.isDigit then
    some (l.foldl (fun acc c => acc * 10 + (c.toNat - 48)) 0)
  else none

/-- Models JS `parseInt` on an optionally `-`-signed digit run. -/
def digitsToInt (l : List Char) : Option Int :=
  match l with
  | '-' :: rest => (digitsToNat rest).map (fun n => -(n : Int))
  | _ => (digitsToNat l).map (fun n => (n : Int))

/-- Numeric coercion of a decimal literal, modelling the JS `+ts` /
`Number.parseFloat` conversions on the decimal strings ffprobe emits
(optional sign, integer digits, optional fractional digits).  Strings
outside that shape coerce to NaN in JS; the model is only applied to
well-formed decimals. -/
def parseDecimal (s : String) : Rat :=
  let (neg, t) : Bool × List Char :=
    match s.data with
    | '-' :: rest => (true, rest)
    | l => (false, l)
  match splitOnPred (fun c => c = '.') t with
  | [w] =>
    let n : Int := (digitsToNat w).getD 0
    mkRat (if neg then -n else n) 1
  | [w, f] =>
    let n : Int := ((digitsToNat w).getD 0) * 10 ^ f.length + ((digitsToNat f).getD 0)
    mkRat (if neg then -n else n) (10 ^ f.length)
  | _ => 0

/-- The pure core of `getKeyframeTimestamps` (source lines 638-657),
applied to the trimmed raw ffprobe output: an empty response yields `[]`
(`if (!raw) return []`); otherwise the text is split on whitespace runs
(`split(/\s+/)`), each token is coerced to a number, and the list is
sorted ascending (`sort(nativeOrdering)`; JS mandates a stable sort,
modelled by insertion sort). -/
def getKeyframeTimestamps (raw : String) : List Rat :=
  if raw = "" then []
  else List.insertionSort (· ≤ ·)
    (((splitChars Char.isWhitespace raw).filter (· ≠ "")).map parseDecimal)

/-- A JSON document, as produced by `JSON.parse` on the ffprobe output
(current revision's `probe`, source lines 627-636). -/
inductive Json where
  | null
  | bool (b : Bool)
  | num (n : Rat)
  | str (s : String)
  | arr (elems : List Json)
  | obj (fields : List (String × Json))
deriving Repr

/-- JS property read `j[k]` on a parsed JSON value: `none` models
`undefined` (absent key or non-object receiver); on duplicate keys
`JSON.parse` keeps the last, hence the fold. -/
def Json.get? (j : Json) (k : String) : Option Json :=
  match j with
  | .obj fields => fields.foldl (fun acc p => if p.1 = k then some p.2 else acc) none
  | _ => none

def Json.asArr? : Json → Option (List Json)
  | .arr xs => some xs
  | _ => none

/-- The probe result shape of the current revision (source lines
363-367): `streams` and `format` are both optional — ffprobe outputs an
empty object for invalid formats. -/
structure ffprobeOutput where
  streams : Option (List Json)
  format : Option Json
deriving Repr

/-- The current revision's `probe` (source lines 627-636) after
`JSON.parse`: the document is read structurally as `ffprobeOutput`; a
missing `streams` or `format` key is `undefined`, i.e. `none`. -/
def probeJson (j : Json) : ffprobeOutput :=
  { streams := (j.get? "streams").bind Json.asArr?
    format := j.get? "format" }

/-- Source `isFfprobeAudioStream` (lines 369-371): discriminate a stream
entry by its `codec_type` field. -/
def isFfprobeAudioStream (j : Json) : Bool :=
  match j.get? "codec_type" with
  | some (.str s) => s = "audio"
  | _ => false

/-- Source `isFfprobeVideoStream` (lines 372-374). -/
def isFfprobeVideoStream (j : Json) : Bool :=
  match j.get? "codec_type" with
  | some (.str s) => s = "video"
  | _ => false

/-- The container duration of a probe result, read from the `format`
object (absent when `format` is absent or has no `duration` key). -/
def ffprobeOutput.duration (o : ffprobeOutput) : Option Json :=
  o.format.bind (fun f => f.get? "duration")

/-- The `MediaFileProperties` record of the earlier revision (source lines 5-12 of
that revision).  The parser starts from `{} as any` and assigns fields as
sections match, so every field is optional. -/
structure MediaFileProperties where
  height : Option Int
  width : Option Int
  fps : Option Rat
  duration : Option Rat
  audioCodec : Option String
  videoCodec : Option String
deriving DecidableEq, Repr

def emptyMediaFileProperties : MediaFileProperties :=
  ⟨none, none, none, none, none, none⟩

/-- One step of the bracketed-section scan, at the head of the character
list: the regex `\[([A-Z]+)]([^\[]*)\[\/\1]` matched at this position.
The body may not contain `[`, so no backtracking can occur: the first `[`
after the body must open the matching `[/NAME]` closer. -/
def matchSectionAt (cs : List Char) : Option ((String × String) × List Char) :=
  match cs with
  | [] => none
  | c :: rest =>
    if c = '[' then
      let name := rest.takeWhile (fun ch => 'A' ≤ ch ∧ ch ≤ 'Z')
      if name.isEmpty then none
      else
        match rest.drop name.length with
        | ']' :: rest2 =>
          let body := rest2.takeWhile (fun ch => ch ≠ '[')
          let rest3 := rest2.drop body.length
          if rest3.take (name.length + 3) = '[' :: '/' :: (name ++ [']']) then
            some ((String.mk name, String.mk body), rest3.drop (name.length + 3))
          else none
        | _ => none
    else none

/-- The global scan of `raw.matchAll(/\[([A-Z]+)]([^\[]*)\[\/\1]/g)`
(earlier revision, source line 65): try a match at each position, resume
after a match's end.  Fuel (the remaining text length bounds the number
of steps) makes the recursion structural. -/
def findSectionsAux : Nat → List Char → List (String × String)
  | 0, _ => []
  | _ + 1, [] => []
  | fuel + 1, c :: cs =>
    match matchSectionAt (c :: cs) with
    | some (sec, rest) => sec :: findSectionsAux fuel rest
    | none => findSectionsAux fuel cs

def findSections (l : List Char) : List (String × String) :=
  findSectionsAux l.length l

/-- Models `kv.split("=", 2)` on one section line (earlier revision, source line
70): JS's split limit keeps only the first two fragments, so any text
after a second `=` is dropped.  A line with no `=` yields the line as key
with an empty value stand-in. -/
def parseKv (line : String) : String × String :=
  match splitChars (fun c => c = '=') line with
  | [] => ("", "")
  | [k] => (k, "")
  | k :: v :: _ => (k, v)

/-- Models `sectionData.trim().split(/[\r\n]+/)` then `Object.fromEntries`
(earlier revision, source lines 66-71): the regex `+` collapses
consecutive line breaks (no empty lines survive), and `fromEntries` keeps
the last occurrence of a duplicated key — hence the reversed lookup in
`lookupValue`. -/
def sectionValues (body : String) : List (String × String) :=
  ((((splitOnPred (fun c => c = '\r' ∨ c = '\n') (trimChars body.data))).map
      String.mk).filter (fun l => l ≠ "")).map parseKv

def lookupValue (vs : List (String × String)) (k : String) : Option String :=
  (vs.reverse.find? (fun p => p.1 = k)).map (fun p => p.2)

/-- Rational division written out on numerators and denominators via
`mkRat`, so that it evaluates by integer arithmetic; it agrees with `/`
on `Rat` (see `ratDiv_eq_div`), with division by zero yielding `0`. -/
def ratDiv (a b : Rat) : Rat :=
  if b.num = 0 then 0
  else if b.num < 0 then mkRat (a.num * -(b.den : Int)) (a.den * b.num.natAbs)
  else mkRat (a.num * (b.den : Int)) (a.den * b.num.natAbs)

/-- Models `r_frame_rate.split("/").map(parseInt).reduce((n, d) => n / d)`
(earlier revision, source lines 79-82): parse the `/`-separated integers
and fold by division (a single component reduces to itself; JS division
by zero gives Infinity, modelled as `0` — the inspector never emits a
zero denominator). -/
def parseFrameRate (s : String) : Rat :=
  match (splitOnPred (fun c => c = '/') s.data).map
      (fun p => (((digitsToInt p).getD 0 : Int) : Rat)) with
  | [] => 0
  | n :: ds => ds.foldl (fun a d => ratDiv a d) n

/-- Processing of one matched section (earlier revision, source lines
72-92): `STREAM` sections dispatch on `codec_type`, `FORMAT` sets the
duration; unknown sections are skipped.  (The source indexes
`values.height` etc. directly; an absent key or unparseable number is
modelled as `none`.) -/
def applySection (props : MediaFileProperties) (sec : String × String) :
    MediaFileProperties :=
  let vs := sectionValues sec.2
  if sec.1 = "STREAM" then
    match lookupValue vs "codec_type" with
    | some "video" =>
      { props with
        videoCodec := lookupValue vs "codec_name"
        height := (lookupValue vs "height").bind (fun h => digitsToInt h.data)
        width := (lookupValue vs "width").bind (fun w => digitsToInt w.data)
        fps := (lookupValue vs "r_frame_rate").map parseFrameRate }
    | some "audio" => { props with audioCodec := lookupValue vs "codec_name" }
    | _ => props
  else if sec.1 = "FORMAT" then
    { props with duration := (lookupValue vs "duration").map parseDecimal }
  else props

/-- The earlier revision's `probe` (source lines 55-95) applied to the
raw ffprobe text: trim, scan for bracketed sections, fold each matched
section into the (initially empty) properties object. -/
def probeBracketed (raw : String) : MediaFileProperties :=
  (findSections (trimChars raw.data)).foldl applySection emptyMediaFileProperties

/-- A concrete convert spec whose input sets both `duration` and `end`
(possible at runtime through JS structural typing even though the
TypeScript union forbids it in well-typed literals). -/
def c1spec : ConvertOpts :=
  { threads := none
    input := { file := "in.mp4", start := none, copyTimestamps := none,
               duration := some 1, «end» := some 2 }
    map := []
    metadata := true
    video := none
    audio := none
    output := { format := none, file := "out.mp4", start := none,
                duration := none, movflags := [] } }

/-- A concrete gif video codec object with all three filter sources. -/
def sampleVideo : VideoTranscode :=
  { filter := some "eq=contrast=1.1", fps := some 30, vsync := none,
    resize := some (some 640, none), codec := .gif (.bool true) }

/-- A concrete PCM audio codec object. -/
def sampleAudio : AudioTranscode :=
  { samplingRate := some 44100, downmix := some true, filter := none,
    codec := .pcm "s" 16 (some "le") }

/-- A concrete convert spec exercising input and output trims, a gif
video codec and a PCM audio codec. -/
def sampleSpec : ConvertOpts :=
  { threads := some 2
    input := { file := "in.mp4", start := some (mkRat 3 2), copyTimestamps := none,
               duration := some 2, «end» := none }
    map := []
    metadata := false
    video := some (.codec sampleVideo)
    audio := some (.codec sampleAudio)
    output := { format := some "mp4", file := "out.mp4", start := some (mkRat 1 2),
                duration := some 1, movflags := ["faststart"] } }

/-- The argument sequence `buildConvertArgs` compiles `sampleSpec` to. -/
def sampleOut : List String :=
  ["-threads", "2", "-ss", "1.500", "-t", "2.000", "-i", "in.mp4",
   "-map_metadata", "-1",
   "-filter:v", "fps=30,scale=640:-2,eq=contrast=1.1", "-c:v", "gif",
   "-loop", "0",
   "-c:a", "pcm_s16le", "-ac", "1", "-ar", "44100",
   "-movflags", "faststart", "-f", "mp4", "-ss", "0.500", "-t", "1.000",
   "out.mp4"]

/-- A concrete convert spec whose video codec tag (`av1`) is outside the
compiler's known variant set. -/
def c5spec : ConvertOpts :=
  { threads := none
    input := { file := "in.mp4", start := none, copyTimestamps := none,
               duration := none, «end» := none }
    map := []
    metadata := true
    video := some (.codec { filter := none, fps := none, vsync := none,
                            resize := none, codec := .unknown "av1" })
    audio := none
    output := { format := none, file := "out.mp4", start := none,
                duration := none, movflags := [] } }

/-- A concrete vp9 option group whose bitrate-mode tag is outside the
known variant set. -/
def c5vp9opts : Vp9Opts :=
  { multithreading := none, deadline := none, cpuUsed := none,
    mode := .unknown "two-pass" }

/-- A concrete video codec object wrapping `c5vp9opts`. -/
def c5vp9video : VideoTranscode :=
  { filter := none, fps := none, vsync := none, resize := none,
    codec := .vp9 c5vp9opts }

/-- A concrete convert spec whose vp9 bitrate-mode tag is outside the
known variant set, so it reaches the dispatch's throwing default case. -/
def c5vp9spec : ConvertOpts :=
  { threads := none
    input := { file := "in.mp4", start := none, copyTimestamps := none,
               duration := none, «end» := none }
    map := []
    metadata := true
    video := some (.codec c5vp9video)
    audio := none
    output := { format := none, file := "out.mp4", start := none,
                duration := none, movflags := [] } }

/-- A concrete non-copy video spec with all three filter sources set. -/
def v7sample : VideoTranscode :=
  { filter := some "hue=s=0", fps := some 24, vsync := none,
    resize := some (some 1280, none), codec := .libx264 .fast 23 }

instance {ε α : Type} [DecidableEq ε] [DecidableEq α] : DecidableEq (Except ε α) :=
  fun a b =>
    match a, b with
    | .error x, .error y =>
      if h : x = y then isTrue (by rw [h]) else isFalse (fun he => h (Except.error.inj he))
    | .ok x, .ok y =>
      if h : x = y then isTrue (by rw [h]) else isFalse (fun he => h (Except.ok.inj he))
    | .error _, .ok _ => isFalse (fun he => Except.noConfusion he)
    | .ok _, .error _ => isFalse (fun he => Except.noConfusion he)


/-! ## Helper lemmas -/

/-- Sanity check for the executable encoding of division: `ratDiv` is
ordinary division on `Rat`. -/
theorem ratDiv_eq_div (a b : Rat) : ratDiv a b = a / b := by
  unfold ratDiv
  rcases lt_trichotomy b.num 0 with hneg | h0 | hpos
  · rw [if_neg (by omega), if_pos hneg, Rat.mkRat_eq_divInt, Rat.div_def']
    have habs : (b.num.natAbs : Int) = -b.num := by omega
    push_cast [habs]
    rw [mul_neg, mul_neg, Rat.divInt_neg, neg_neg]
  · rw [if_pos h0, Rat.num_eq_zero.mp h0, div_zero]
  · rw [if_neg (by omega), if_neg (by omega), Rat.mkRat_eq_divInt, Rat.div_def']
    have habs : (b.num.natAbs : Int) = b.num := by omega
    push_cast [habs]
    rfl

/-- A successful compilation decomposes into the source-ordered sections:
threads, input, metadata, map, video, audio, output. -/
theorem buildConvertArgs_ok {c : ConvertOpts} {l : List String}
    (h : buildConvertArgs c = .ok l) :
    ∃ v, videoArgs c.video = .ok v ∧
      l = threadsArgs c.threads ++ inputArgs c.input ++ metadataArgs c.metadata ++
          mapArgs c.map ++ v ++ audioArgs c.audio ++ outputArgs c.output := by
  unfold buildConvertArgs at h
  split at h
  · exact Except.noConfusion h
  · rename_i v hv
    exact ⟨v, hv, (Except.ok.inj h).symm⟩

/-! ## Claims -/

/-- C1 (counterexample): the convert spec `c1spec` sets both `duration`
and `end` on input, yet `buildConvertArgs` does not reject it — there is
no `InvalidSpec` error anywhere in the compiler — and instead produces an
argument sequence containing both the `-t` and the `-to` token. -/
theorem c1_counterexample :
    buildConvertArgs c1spec =
      .ok ["-t", "1.000", "-to", "2.000", "-i", "in.mp4", "out.mp4"] ∧
    "-t" ∈ ["-t", "1.000", "-to", "2.000", "-i", "in.mp4", "out.mp4"] ∧
    "-to" ∈ ["-t", "1.000", "-to", "2.000", "-i", "in.mp4", "out.mp4"] :=
  ⟨by decide, by decide, by decide⟩

/-- C1 (amended): mutual exclusion of `duration` and `end` is enforced
only by the configuration type, not at runtime: a convert spec with both
set compiles without error to a sequence carrying `-t <duration>` and
`-to <end>` (in that order, directly before the input path token). -/
theorem c1_amended (c : ConvertOpts) (d e : Rat)
    (hd : c.input.duration = some d) (he : c.input.«end» = some e)
    (l : List String) (hok : buildConvertArgs c = .ok l) :
    ∃ p q, l = p ++ ["-t", toFixed3 d, "-to", toFixed3 e, "-i", c.input.file] ++ q := by
  obtain ⟨v, hv, rfl⟩ := buildConvertArgs_ok hok
  refine ⟨threadsArgs c.threads ++
      (match c.input.copyTimestamps with | some _ => ["-copyts"] | none => []) ++
      (match c.input.start with | some s => ["-ss", toFixed3 s] | none => []),
    metadataArgs c.metadata ++ mapArgs c.map ++ v ++ audioArgs c.audio ++
      outputArgs c.output, ?_⟩
  unfold inputArgs
  rw [hd, he]
  simp

/-- C1 (witness): `c1_amended` applied to the concrete spec `c1spec`. -/
theorem c1_witness :
    ∃ p q, ["-t", "1.000", "-to", "2.000", "-i", "in.mp4", "out.mp4"] =
      p ++ ["-t", toFixed3 1, "-to", toFixed3 2, "-i", c1spec.input.file] ++ q :=
  c1_amended c1spec 1 2 rfl rfl
    ["-t", "1.000", "-to", "2.000", "-i", "in.mp4", "out.mp4"] (by decide)

/-- C2: `buildConvertArgs` is deterministic — it is a pure function of
the spec value, with no hidden state between calls, so compiling equal
spec values yields identical argument sequences. -/
theorem c2_deterministic (a b : ConvertOpts) (h : a = b) :
    buildConvertArgs a = buildConvertArgs b := by rw [h]

/-- C2 (witness): `c2_deterministic` at the concrete spec `sampleSpec`. -/
theorem c2_witness : buildConvertArgs sampleSpec = buildConvertArgs sampleSpec :=
  c2_deterministic sampleSpec sampleSpec rfl

/-- C3 (counterexample): the six bitrate modes' flag sets are not
mutually exclusive: `-b:v` is emitted by distinct modes (average-bitrate
and constant-quality shown here), and constant-bitrate emits exactly the
same flag names as constrained-quality-by-bounds. -/
theorem c3_counterexample :
    "-b:v" ∈ vp9ModeFlagNames (.averageBitrate 1000000) ∧
    "-b:v" ∈ vp9ModeFlagNames (.constantQuality 30) ∧
    vp9ModeFlagNames (.constantBitrate "1M") =
      vp9ModeFlagNames (.constrainedQualityBounds "500k" "1M" "2M") ∧
    Vp9Mode.constantBitrate "1M" ≠ .constrainedQualityBounds "500k" "1M" "2M" :=
  ⟨by decide, by decide, by decide, by decide⟩

/-- C3 (amended): each vp9 bitrate mode emits a fixed flag sequence —
average-bitrate exactly the one rate flag `-b:v`;
constrained-quality-by-bounds exactly the three rate flags
`-minrate`, `-b:v`, `-maxrate`; lossless exactly the single boolean flag
`-lossless 1` and no bitrate flags; and analogously for the remaining
three modes — but the modes' flag-name sets overlap (they are mutually
exclusive only in the sense that exactly one mode's set is emitted). -/
theorem c3_amended :
    (∀ b : Int, vp9ModeArgs (.averageBitrate b) = .ok ["-b:v", toString b] ∧
      vp9ModeFlagNames (.averageBitrate b) = ["-b:v"]) ∧
    (∀ mn t mx : String,
      vp9ModeArgs (.constrainedQualityBounds mn t mx) =
        .ok ["-minrate", mn, "-b:v", t, "-maxrate", mx] ∧
      vp9ModeFlagNames (.constrainedQualityBounds mn t mx) =
        ["-minrate", "-b:v", "-maxrate"]) ∧
    vp9ModeArgs .lossless = .ok ["-lossless", "1"] ∧
    vp9ModeFlagNames .lossless = ["-lossless"] ∧
    (∀ c : Int,
      vp9ModeArgs (.constantQuality c) = .ok ["-crf", toString c, "-b:v", "0"]) ∧
    (∀ (c : Int) (b : String),
      vp9ModeArgs (.constrainedQualityCrf c b) = .ok ["-crf", toString c, "-b:v", b]) ∧
    (∀ b : String,
      vp9ModeArgs (.constantBitrate b) = .ok ["-minrate", b, "-b:v", b, "-maxrate", b]) :=
  ⟨fun _ => ⟨rfl, rfl⟩, fun _ _ _ => ⟨rfl, rfl⟩, rfl, rfl,
   fun _ => rfl, fun _ _ => rfl, fun _ => rfl⟩

/-- C4: for a spec with input trim (start and duration, no end offset)
and output trim both set, the compiled sequence places the input trim
tokens directly before the input path token `-i <file>`, and the output
trim tokens directly before the output path token, which is the last
token of the sequence. -/
theorem c4_trim_ordering (c : ConvertOpts) (s d os od : Rat)
    (h1 : c.input.start = some s) (h2 : c.input.duration = some d)
    (h3 : c.input.«end» = none)
    (h4 : c.output.start = some os) (h5 : c.output.duration = some od)
    (l : List String) (hok : buildConvertArgs c = .ok l) :
    ∃ p q, l = p ++ ["-ss", toFixed3 s, "-t", toFixed3 d, "-i", c.input.file] ++ q ++
      ["-ss", toFixed3 os, "-t", toFixed3 od, c.output.file] := by
  obtain ⟨v, hv, rfl⟩ := buildConvertArgs_ok hok
  refine ⟨threadsArgs c.threads ++
      (match c.input.copyTimestamps with | some _ => ["-copyts"] | none => []),
    metadataArgs c.metadata ++ mapArgs c.map ++ v ++ audioArgs c.audio ++
      (if c.output.movflags.isEmpty then []
       else ["-movflags", String.intercalate "+" c.output.movflags]) ++
      (match c.output.format with | some f => ["-f", f] | none => []), ?_⟩
  unfold inputArgs outputArgs
  rw [h1, h2, h3, h4, h5]
  simp

/-- C4 (witness): `c4_trim_ordering` at the concrete spec `sampleSpec`. -/
theorem c4_witness :
    ∃ p q, sampleOut =
      p ++ ["-ss", toFixed3 (mkRat 3 2), "-t", toFixed3 2, "-i",
            sampleSpec.input.file] ++ q ++
      ["-ss", toFixed3 (mkRat 1 2), "-t", toFixed3 1, sampleSpec.output.file] :=
  c4_trim_ordering sampleSpec (mkRat 3 2) 2 (mkRat 1 2) 1
    rfl rfl rfl rfl rfl sampleOut (by decide)

/-- C5 (counterexample): a spec whose video codec tag (`av1`) is outside
the known variant set is not rejected: the codec switch has no default
case, so the compiler succeeds, emitting `-c:v av1` and no tuning flags
and no `UnsupportedVariant`/`UnreachableError`. -/
theorem c5_counterexample :
    buildConvertArgs c5spec = .ok ["-i", "in.mp4", "-c:v", "av1", "out.mp4"] ∧
    videoTuningArgs (.unknown "av1") = .ok [] :=
  ⟨by decide, rfl⟩

/-- C5 (amended): only the vp9 bitrate-mode dispatch guards against
unknown tags: an unknown mode tag reaching it makes the whole compilation
fail with `UnreachableError`, while an unknown video codec tag is
silently accepted with no tuning flags. -/
theorem c5_amended :
    (∀ (c : ConvertOpts) (v : VideoTranscode) (o : Vp9Opts) (tag : String),
      c.video = some (.codec v) → v.codec = .vp9 o → o.mode = .unknown tag →
      buildConvertArgs c = .error ⟨tag⟩) ∧
    (∀ tag, videoTuningArgs (.unknown tag) = .ok []) := by
  constructor
  · intro c v o tag hc hv ho
    have hva : videoArgs c.video = .error ⟨tag⟩ := by
      rw [hc]
      simp [videoArgs, videoNonCopyArgs, hv, videoTuningArgs, vp9Args, ho, vp9ModeArgs]
    unfold buildConvertArgs
    rw [hva]
  · intro tag
    rfl

/-- C5 (witness): `c5_amended` at the concrete spec `c5vp9spec`, whose
vp9 mode tag is `two-pass`. -/
theorem c5_witness : buildConvertArgs c5vp9spec = .error ⟨"two-pass"⟩ :=
  c5_amended.1 c5vp9spec c5vp9video c5vp9opts "two-pass" rfl rfl rfl

/-- C6: for a spec whose audio codec is PCM, the token emitted after
`-c:a` is the derived name `pcm_<signedness><bits><endianness?>`; in
particular signed 16-bit little-endian derives `pcm_s16le` and unsigned
8-bit with endianness omitted derives `pcm_u8`. -/
theorem c6_pcm_name (c : ConvertOpts) (a : AudioTranscode) (sg : String)
    (bits : Nat) (e : Option String)
    (ha : c.audio = some (.codec a)) (hcodec : a.codec = .pcm sg bits e)
    (l : List String) (hok : buildConvertArgs c = .ok l) :
    (∃ p q, l = p ++ ["-c:a", pcmName sg bits e] ++ q) ∧
    pcmName sg bits e = "pcm_" ++ sg ++ toString bits ++ e.getD "" ∧
    pcmName "s" 16 (some "le") = "pcm_s16le" ∧
    pcmName "u" 8 none = "pcm_u8" := by
  refine ⟨?_, rfl, rfl, rfl⟩
  obtain ⟨v, hv, rfl⟩ := buildConvertArgs_ok hok
  refine ⟨threadsArgs c.threads ++ inputArgs c.input ++ metadataArgs c.metadata ++
      mapArgs c.map ++ v ++
      (match a.filter with | some f => ["-af", f] | none => []),
    (if a.downmix.getD false then ["-ac", "1"] else []) ++
      (match a.samplingRate with
       | some r => if r ≠ 0 then ["-ar", toString r] else []
       | none => []) ++
      audioQualityArgs a.codec ++ outputArgs c.output, ?_⟩
  rw [ha]
  simp only [audioArgs]
  rw [hcodec]
  simp [audioCodecTag]

/-- C6 (witness): `c6_pcm_name` at the concrete spec `sampleSpec`, whose
audio codec is `{signedness: s, bits: 16, endianness: le}`. -/
theorem c6_witness :
    (∃ p q, sampleOut = p ++ ["-c:a", pcmName "s" 16 (some "le")] ++ q) ∧
    pcmName "s" 16 (some "le") = "pcm_" ++ "s" ++ toString 16 ++ (some "le").getD "" ∧
    pcmName "s" 16 (some "le") = "pcm_s16le" ∧
    pcmName "u" 8 none = "pcm_u8" :=
  c6_pcm_name sampleSpec sampleAudio "s" 16 (some "le") rfl rfl sampleOut (by decide)

/-- C7: for a non-copy video codec spec the compiler assembles all video
filters into at most one `-filter:v` flag: the flag is absent exactly
when fps, resize and the free-form fragment are all absent; when any is
present its value is the comma-join of the fps filter, then the scale
filter, then the free-form fragment; at most one `-filter:v` flag
position is produced; and the video section is exactly that flag followed
by vsync, codec selection, and tuning. -/
theorem c7_single_filter (v : VideoTranscode) :
    ((v.fps = none ∧ v.resize = none ∧ v.filter = none) ↔ filterVFlag v = []) ∧
    (videoFilters v ≠ [] →
      filterVFlag v = ["-filter:v", String.intercalate "," (videoFilters v)]) ∧
    (evenPositions (filterVFlag v)).count "-filter:v" ≤ 1 ∧
    (∀ t, videoTuningArgs v.codec = .ok t →
      videoNonCopyArgs v =
        .ok (filterVFlag v ++ vsyncArgs v.vsync ++
             ["-c:v", videoCodecTag v.codec] ++ t)) := by
  refine ⟨?_, ?_, ?_, ?_⟩
  · cases hfps : v.fps <;> cases hrs : v.resize <;> cases hfl : v.filter <;>
      simp_all [filterVFlag, videoFilters]
  · intro h
    simp [filterVFlag, h]
  · unfold filterVFlag
    split
    · decide
    · show List.count "-filter:v" ["-filter:v"] ≤ 1
      decide
  · intro t ht
    unfold videoNonCopyArgs
    rw [ht]

/-- C7 (witness): `c7_single_filter` at the concrete video spec
`v7sample`, which sets fps, resize and a free-form fragment. -/
theorem c7_witness :
    videoNonCopyArgs v7sample =
      .ok (filterVFlag v7sample ++ vsyncArgs v7sample.vsync ++
           ["-c:v", videoCodecTag v7sample.codec] ++
           ["-preset", "fast", "-crf", "23", "-max_muxing_queue_size", "1048576"]) :=
  (c7_single_filter v7sample).2.2.2
    ["-preset", "fast", "-crf", "23", "-max_muxing_queue_size", "1048576"] (by decide)

/-- C8: keyframe-timestamp extraction parses a whitespace-separated list
of decimal timestamps and returns them sorted ascending — the raw text
`1.0 3.5 2.2` yields `[1.0, 2.2, 3.5]` — and an empty raw response
yields the empty sequence rather than an error. -/
theorem c8_keyframes :
    getKeyframeTimestamps "1.0 3.5 2.2" = [1, mkRat 11 5, mkRat 7 2] ∧
    getKeyframeTimestamps "" = [] ∧
    ∀ raw, List.Sorted (· ≤ ·) (getKeyframeTimestamps raw) := by
  refine ⟨by decide, by decide, ?_⟩
  intro raw
  unfold getKeyframeTimestamps
  split
  · simp
  · exact List.sorted_insertionSort _ _

/-- Helper for C9: the bracketed-section scanner finds no section in text
containing no `[` character. -/
theorem findSectionsAux_no_marker :
    ∀ (fuel : Nat) (l : List Char), (∀ ch ∈ l, ch ≠ '[') →
      findSectionsAux fuel l = [] := by
  intro fuel
  induction fuel with
  | zero => intro l _; rfl
  | succ n ih =>
    intro l h
    cases l with
    | nil => rfl
    | cons c cs =>
      have hc : c ≠ '[' := h c (List.mem_cons_self c cs)
      have hm : matchSectionAt (c :: cs) = none := by
        unfold matchSectionAt
        simp [hc]
      simp only [findSectionsAux, hm]
      exact ih cs (fun ch hch => h ch (List.mem_cons_of_mem c hch))

/-- C9: an empty probe output throws nowhere and decodes to an empty
result.  JSON format: the empty document `{}` decodes to a result with
`streams` and `format` absent — hence no video stream entry, no audio
stream entry, and no duration.  Bracketed format: raw text containing no
section marker (no `[` at all) parses to the empty properties object,
with both codecs, the dimensions and the duration all unset. -/
theorem c9_empty_probe :
    (probeJson (Json.obj [])).streams = none ∧
    (probeJson (Json.obj [])).format = none ∧
    (probeJson (Json.obj [])).duration = none ∧
    ((probeJson (Json.obj [])).streams.getD []).filter isFfprobeVideoStream = [] ∧
    ((probeJson (Json.obj [])).streams.getD []).filter isFfprobeAudioStream = [] ∧
    (∀ raw : String, (∀ ch ∈ trimChars raw.data, ch ≠ '[') →
      probeBracketed raw = emptyMediaFileProperties) := by
  refine ⟨rfl, rfl, rfl, rfl, rfl, ?_⟩
  intro raw h
  unfold probeBracketed findSections
  rw [findSectionsAux_no_marker _ _ h]
  rfl

/-- C9 (witness): `c9_empty_probe` on a concrete marker-free raw text. -/
theorem c9_witness : probeBracketed "plain text output" = emptyMediaFileProperties :=
  c9_empty_probe.2.2.2.2.2 "plain text output" (by decide)

/-- C10: for a gif video spec the compiled arguments contain the `-loop`
flag with the translated loop value: `true` becomes `0`, `false` becomes
`-1`, and a numeric value is passed verbatim; the gif tuning is exactly
that one flag. -/
theorem c10_gif_loop :
    (∀ (c : ConvertOpts) (v : VideoTranscode) (gl : GifLoop) (l : List String),
      c.video = some (.codec v) → v.codec = .gif gl → buildConvertArgs c = .ok l →
      ∃ p q, l = p ++ ["-loop", gifLoopToken gl] ++ q) ∧
    gifLoopToken (.bool true) = "0" ∧
    gifLoopToken (.bool false) = "-1" ∧
    (∀ n : Int, gifLoopToken (.num n) = toString n) ∧
    (∀ gl, videoTuningArgs (.gif gl) = .ok ["-loop", gifLoopToken gl]) := by
  refine ⟨?_, rfl, rfl, fun _ => rfl, fun _ => rfl⟩
  intro c v gl l hc hg hok
  obtain ⟨w, hw, rfl⟩ := buildConvertArgs_ok hok
  rw [hc] at hw
  simp only [videoArgs, videoNonCopyArgs, hg, videoTuningArgs] at hw
  obtain rfl := (Except.ok.inj hw).symm
  refine ⟨threadsArgs c.threads ++ inputArgs c.input ++ metadataArgs c.metadata ++
      mapArgs c.map ++ filterVFlag v ++ vsyncArgs v.vsync ++
      ["-c:v", videoCodecTag (.gif gl)],
    audioArgs c.audio ++ outputArgs c.output, ?_⟩
  simp

/-- C10 (witness): `c10_gif_loop` at the concrete spec `sampleSpec`,
whose gif loop value is `true`. -/
theorem c10_witness :
    ∃ p q, sampleOut = p ++ ["-loop", gifLoopToken (.bool true)] ++ q :=
  c10_gif_loop.1 sampleSpec sampleVideo (.bool true) sampleOut rfl rfl (by decide)
